import Mathlib

/-!
Verification development for the autonomous-lead-qualification pipeline core.

Shallow embedding of the Python sources:
  * `src/libs/agents/base_agent.py`  — pipeline stage contract (AgentState, run envelope)
  * `src/libs/agents/scorer.py`      — ScorerAgent (fit / intent / timing, BANT / CHAMP)
  * `src/libs/agents/enricher.py`    — EnricherAgent (tech stack, category, pain points)
  * `src/services/crawler/crawler.py`— PoliteCrawler (robots cache, fetch outcomes)
  * `src/services/workers/worker.py` — WorkerService (dispatcher)

Modelling conventions: Python dicts become association lists keyed by `String`;
a Python float becomes an exact rational (`ℚ`); a timestamp becomes a rational
number of seconds with the evaluation instant `now` passed explicitly; a Python
step that may raise becomes an `Except` value whose error carries the message
and the state as mutated up to the raise point (Python mutation is in place, so
an exception leaves earlier mutations visible).  I/O (HTTP responses, robots
fetches, LLM calls, handler bodies) is abstracted into explicit oracle
parameters, and network operations are logged in an explicit effect list.
-/

namespace LeadQual

/-! ## Association lists (Python dict embedding) -/

/-- Lookup of the value stored under key `k` (first matching entry). -/
def alookup {β : Type} (k : String) : List (String × β) → Option β
  | [] => .none
  | p :: rest => if p.1 = k then .some p.2 else alookup k rest

/-- Python `d[k] = v`: replace in place when the key exists (keeping its
position, as CPython dicts keep insertion order), else append at the end. -/
def aset {β : Type} (d : List (String × β)) (k : String) (v : β) :
    List (String × β) :=
  if (alookup k d).isSome then
    d.map (fun p => if p.1 = k then (k, v) else p)
  else d ++ [(k, v)]

/-- Python `d.update(e)`: assign every entry of `e`, in order. -/
def aupdate {β : Type} (d e : List (String × β)) : List (String × β) :=
  e.foldl (fun acc p => aset acc p.1 p.2) d

/-! ## Values stored in the company-attributes map -/

/-- A JSON-ish value as stored in `state.company_data`. -/
inductive Value where
  | vstr (s : String)
  | vint (n : Int)
  | vrat (q : ℚ)
  | vlist (l : List String)
  | vnone
deriving Repr, DecidableEq

abbrev Dict := List (String × Value)

/-- Python `d.get(k, default)` read as a string.  A non-string value at the key
would raise at the subsequent string method call in Python; the claims only
exercise well-typed dictionaries, so the default is returned there. -/
def getStr (d : Dict) (k : String) (default : String) : String :=
  match alookup k d with
  | .some (.vstr s) => s
  | _ => default

/-- Python `d.get(k, default)` read as an integer. -/
def getInt (d : Dict) (k : String) (default : Int) : Int :=
  match alookup k d with
  | .some (.vint n) => n
  | _ => default

/-- Python `d.get(k, 0)` read as a number (int or float). -/
def getNum (d : Dict) (k : String) : ℚ :=
  match alookup k d with
  | .some (.vint n) => (n : ℚ)
  | .some (.vrat q) => q
  | _ => 0

/-- Python `d.get(k, [])` read as a list of strings. -/
def getStrList (d : Dict) (k : String) : List String :=
  match alookup k d with
  | .some (.vlist l) => l
  | _ => []

/-- Python truthiness of `d.get(k)`. -/
def pyTruthy (v : Option Value) : Bool :=
  match v with
  | .none => false
  | .some .vnone => false
  | .some (.vint n) => n ≠ 0
  | .some (.vrat q) => q ≠ 0
  | .some (.vstr s) => !s.isEmpty
  | .some (.vlist l) => !l.isEmpty

/-- Python falsiness of the optional `state.company_data` (`None` or `{}`). -/
def dictFalsy (d : Option Dict) : Bool :=
  match d with
  | .none => true
  | .some l => l.isEmpty

/-! ## Events, signals, pipeline state -/

/-- An event dictionary, restricted to the fields the pipeline reads.
`timestamp` is seconds since the epoch; `Option.none` models an absent, `None`
or empty timestamp (all falsy in Python, hence never recent). -/
structure Event where
  event_type : String := ""
  timestamp : Option ℚ := .none
  text : String := ""
  title : String := ""
deriving Repr, DecidableEq

/-- A signal dictionary, restricted to the fields the pipeline reads. -/
structure Signal where
  kind : String := ""
  timestamp_start : Option ℚ := .none
  score : ℚ := 0
deriving Repr, DecidableEq

/-- The score map written by the Scoring Stage (`state.scores`). -/
structure ScoreSet where
  overall : ℚ
  fit : ℚ
  intent : ℚ
  timing : ℚ
  bant_qualified : Bool
  champ_qualified : Bool
deriving Repr, DecidableEq

/-- `AgentState` from `base_agent.py`: the mutable envelope threaded through
the stages.  `scores = Option.none` models the initial empty score map. -/
structure AgentState where
  execution_id : String := ""
  company_id : Option Int := .none
  company_data : Option Dict := .none
  signals : List Signal := []
  events : List Event := []
  scores : Option ScoreSet := .none
  proposal : Option Dict := .none
  errors : List String := []
  warnings : List String := []
  metadata : List (String × String) := []
deriving Repr, DecidableEq

/-! ## String utilities (Python `in`, `find`, slicing, `strip`, `title`) -/

/-- Python `needle in hay` on character lists (the empty needle matches). -/
def listContains (hay needle : List Char) : Bool :=
  match hay with
  | [] => needle.isEmpty
  | _ :: t => needle.isPrefixOf hay || listContains t needle

/-- Python `needle in hay` on strings. -/
def strContains (hay needle : String) : Bool :=
  listContains hay.toList needle.toList

/-- Python `hay.find(needle)`: index of the first occurrence, `Option.none`
when absent (the source guards every `find` with an `in` test first). -/
def findSub (hay needle : List Char) : Option Nat :=
  match hay with
  | [] => if needle.isEmpty then .some 0 else .none
  | _ :: t =>
    if needle.isPrefixOf hay then .some 0
    else (findSub t needle).map (· + 1)

/-- Python slice `l[a:b]` with `a b : ℕ` (clamped at the list end). -/
def pySlice (l : List Char) (a b : Nat) : List Char :=
  (l.drop a).take (b - a)

/-- Python `s.lower()`: lowercase character by character (ASCII case works
identically in Python and Lean; all keywords of this codebase are ASCII). -/
def pyLower (s : String) : String :=
  (s.toList.map Char.toLower).asString

/-- Python `s.strip()`: drop leading and trailing whitespace. -/
def pyStrip (s : String) : String :=
  ((s.toList.dropWhile Char.isWhitespace).reverse.dropWhile
    Char.isWhitespace).reverse.asString

/-- Python `s.title()`: uppercase every cased character that follows a
non-cased character, lowercase the other cased characters. -/
def titleAux : List Char → Bool → List Char
  | [], _ => []
  | c :: rest, startOfWord =>
    (if c.isAlpha then (if startOfWord then c.toUpper else c.toLower) else c) ::
      titleAux rest (!c.isAlpha)

def pyTitle (s : String) : String :=
  (titleAux s.toList true).asString

/-! ## Python `round(x, 2)` -/

/-- Round to the nearest integer, ties to the even integer (the tie rule of
Python `round`; every value this development rounds is tie-free anyway). -/
def roundHalfEven (x : ℚ) : ℤ :=
  if x - ⌊x⌋ < 1/2 then ⌊x⌋
  else if 1/2 < x - ⌊x⌋ then ⌊x⌋ + 1
  else if ⌊x⌋ % 2 = 0 then ⌊x⌋ else ⌊x⌋ + 1

/-- Python `round(x, 2)` over exact rationals. -/
def round2 (x : ℚ) : ℚ := (roundHalfEven (x * 100) : ℚ) / 100

/-- Values that are an integer multiple of one half (every component score the
Scoring Stage produces is such a value, so `round2` fixes them). -/
def HalfInt (q : ℚ) : Prop := ∃ n : ℤ, q * 2 = (n : ℚ)

/-! ## ScorerAgent (`src/libs/agents/scorer.py`) -/

/-- Scoring weights set in the `ScorerAgent` constructor. -/
def fit_weight : ℚ := 0.4

def intent_weight : ℚ := 0.4

def timing_weight : ℚ := 0.2

/-- `ScorerAgent._is_recent`: the timestamp lies strictly within the last
`days` days before `now`.  `Option.none` models a missing, `None` or empty
timestamp (falsy in Python, hence never recent). -/
def is_recent (now : ℚ) (timestamp : Option ℚ) (days : ℚ) : Bool :=
  match timestamp with
  | .none => false
  | .some ts => decide (now - days * 86400 < ts)

def target_industries : List String :=
  ["technology", "fintech", "saas", "healthcare", "enterprise"]

/-- Industry fit (30 points block of `calculate_fit_score`). -/
def industryComponent (cd : Dict) : ℚ :=
  if target_industries.any
      (fun t => strContains (pyLower (getStr cd "industry" "")) t)
  then 30 else 0

/-- Size fit (30 points block of `calculate_fit_score`): the employee-count
bracket bonus. -/
def fit_size_component (e : Int) : ℚ :=
  if 200 ≤ e ∧ e ≤ 5000 then 30
  else if (50 ≤ e ∧ e < 200) ∨ (5000 < e ∧ e ≤ 10000) then 20
  else if 0 < e then 10
  else 0

def modern_tech_terms : List String :=
  ["aws", "azure", "gcp", "kubernetes", "python", "react", "microservices",
   "api"]

def modernTechCount (cd : Dict) : ℕ :=
  ((getStrList cd "tech_stack").filter
    (fun tech => modern_tech_terms.any (fun m => strContains (pyLower tech) m))).length

/-- Tech stack fit (20 points block of `calculate_fit_score`). -/
def techStackComponent (cd : Dict) : ℚ :=
  Min.min ((modernTechCount cd : ℚ) * 5) 20

/-- Funding/revenue fit (20 points block of `calculate_fit_score`). -/
def fundingComponent (cd : Dict) : ℚ :=
  (if 0 < getNum cd "total_funding" then 10 else 0) +
  (if pyTruthy (alookup "revenue" cd) then 10 else 0)

/-- `ScorerAgent.calculate_fit_score`: the four score blocks accumulated in
source order, clamped by the final `min(score, 100)`. -/
def calculate_fit_score (cd : Dict) : ℚ :=
  Min.min (industryComponent cd + fit_size_component (getInt cd "employee_count" 0)
    + techStackComponent cd + fundingComponent cd) 100

/-- Recent hiring signals (30 points block of `calculate_intent_score`). -/
def hiringComponent (now : ℚ) (events : List Event) : ℚ :=
  let recent_events := events.filter (fun e => is_recent now e.timestamp 30)
  let hiring_events := recent_events.filter
    (fun e => e.event_type == "job_posting" || e.event_type == "careers")
  Min.min ((hiring_events.length : ℚ) * 5) 30

/-- Tech adoption signals (25 points block of `calculate_intent_score`). -/
def techAdoptionComponent (signals : List Signal) : ℚ :=
  Min.min (((signals.filter (fun s => s.kind == "tech_adoption")).length : ℚ)
    * 12.5) 25

/-- Funding events (20 points block of `calculate_intent_score`). -/
def fundingSignalComponent (signals : List Signal) : ℚ :=
  if signals.filter (fun s => s.kind == "funding_event" || s.kind == "budget_event")
      = [] then 0 else 20

/-- Expansion signals (15 points block of `calculate_intent_score`). -/
def expansionComponent (signals : List Signal) : ℚ :=
  Min.min (((signals.filter
    (fun s => s.kind == "expansion" || s.kind == "product_launch")).length : ℚ)
    * 7.5) 15

/-- Pain point mentions (10 points block of `calculate_intent_score`). -/
def painPointComponent (signals : List Signal) : ℚ :=
  Min.min (((signals.filter (fun s => s.kind == "pain_point")).length : ℚ) * 5) 10

/-- `ScorerAgent.calculate_intent_score`. -/
def calculate_intent_score (now : ℚ) (events : List Event)
    (signals : List Signal) : ℚ :=
  Min.min (hiringComponent now events + techAdoptionComponent signals
    + fundingSignalComponent signals + expansionComponent signals
    + painPointComponent signals) 100

/-- `ScorerAgent.calculate_timing_score`.  The `signals` parameter is unused,
exactly as in the source. -/
def calculate_timing_score (now : ℚ) (events : List Event)
    (_signals : List Signal) : ℚ :=
  let recent_7d := events.filter (fun e => is_recent now e.timestamp 7)
  let recent_30d := events.filter (fun e => is_recent now e.timestamp 30)
  let recent_90d := events.filter (fun e => is_recent now e.timestamp 90)
  let recencyScore : ℚ :=
    if recent_7d ≠ [] then 50
    else if recent_30d ≠ [] then 35
    else if recent_90d ≠ [] then 20
    else 0
  let velocityScore : ℚ :=
    if (recent_30d.length : ℤ) > (recent_90d.length : ℤ) - (recent_30d.length : ℤ)
    then 50
    else if 0 < recent_30d.length then 25
    else 0
  Min.min (recencyScore + velocityScore) 100

/-- Python `company_data.get("revenue") is not None`. -/
def revenueNotNone (cd : Dict) : Bool :=
  match alookup "revenue" cd with
  | .some .vnone => false
  | .some _ => true
  | .none => false

/-- `ScorerAgent.check_bant_qualification`. -/
def check_bant_qualification (now : ℚ) (st : AgentState) : Bool :=
  let cd := st.company_data.getD []
  let has_budget := decide (0 < getNum cd "total_funding") || revenueNotNone cd
  let has_authority := decide (getInt cd "employee_count" 0 < 5000)
  let has_need := decide (0 < st.signals.length)
  let has_timeline := st.signals.any (fun s => is_recent now s.timestamp_start 90)
  has_budget && has_authority && has_need && has_timeline

/-- `ScorerAgent.check_champ_qualification`. -/
def check_champ_qualification (now : ℚ) (st : AgentState) : Bool :=
  let cd := st.company_data.getD []
  let has_challenges := st.signals.any
    (fun s => s.kind == "pain_point" || s.kind == "hiring_spike")
  let has_authority := decide (getInt cd "employee_count" 0 < 5000)
  let has_money := decide (0 < getNum cd "total_funding")
  let has_priority := st.signals.any
    (fun s => decide (75 < s.score) && is_recent now s.timestamp_start 30)
  has_challenges && has_authority && has_money && has_priority

/-- `ScorerAgent.execute`: guard on falsy company data, compute the three
component scores, store them rounded together with the weighted overall, then
evaluate the two qualification frameworks (which read only `company_data` and
`signals`, untouched by the score assignment). -/
def ScorerAgent.execute (now : ℚ) (st : AgentState) : AgentState :=
  if dictFalsy st.company_data then
    { st with errors := st.errors ++ ["No company data to score"] }
  else
    let cd := st.company_data.getD []
    let fit_score := calculate_fit_score cd
    let intent_score := calculate_intent_score now st.events st.signals
    let timing_score := calculate_timing_score now st.events st.signals
    let overall_score := fit_score * fit_weight + intent_score * intent_weight
      + timing_score * timing_weight
    { st with scores := .some {
        overall := round2 overall_score
        fit := round2 fit_score
        intent := round2 intent_score
        timing := round2 timing_score
        bant_qualified := check_bant_qualification now st
        champ_qualified := check_champ_qualification now st } }

/-- Default used only to read back a score set that is known to be present. -/
def defaultScoreSet : ScoreSet :=
  { overall := 0, fit := 0, intent := 0, timing := 0,
    bant_qualified := false, champ_qualified := false }

/-- The stored score set of a state (defaulting when none was stored). -/
def scoresOf (st : AgentState) : ScoreSet := st.scores.getD defaultScoreSet

/-- A concrete state with non-falsy company data, for witnesses. -/
def scorerWitnessState : AgentState :=
  { company_data := .some [("industry", Value.vstr "saas")] }

/-! ## EnricherAgent (`src/libs/agents/enricher.py`) -/

/-- The tech keyword set of `extract_tech_stack`.  The source writes a Python
set literal; it is modelled as the list of its members in written order. -/
def tech_keywords : List String :=
  ["aws", "azure", "gcp", "google cloud", "kubernetes", "docker",
   "postgresql", "mysql", "mongodb", "redis", "elasticsearch", "dynamodb",
   "python", "java", "javascript", "typescript", "go", "rust", "node.js",
   "react", "angular", "vue", "django", "flask", "spring", "express",
   "spark", "hadoop", "tensorflow", "pytorch", "airflow", "kafka",
   "snowflake", "databricks", "tableau", "looker", "power bi",
   "salesforce", "hubspot", "pipedrive",
   "github", "gitlab", "jenkins", "terraform", "ansible"]

/-- The scanned text of an event:
`(event.get("text", "") + " " + event.get("title", "")).lower()`. -/
def eventText (e : Event) : String :=
  pyLower (e.text ++ " " ++ e.title)

/-- Set insertion for the `found_tech` accumulator.  Python `set` iteration
order is unspecified; the model fixes first-insertion order, which keeps the
collection duplicate-free exactly as a set does. -/
def insertUnique (l : List String) (x : String) : List String :=
  if x ∈ l then l else l ++ [x]

/-- `EnricherAgent.extract_tech_stack`: collect `tech.title()` for every
keyword occurring in some event text. -/
def extract_tech_stack (events : List Event) : List String :=
  events.foldl (fun found event =>
    let text := eventText event
    tech_keywords.foldl (fun found2 tech =>
      if strContains text tech then insertUnique found2 (pyTitle tech)
      else found2) found) []

/-- The employee-count bracketing of `EnricherAgent.categorize_company`. -/
def segmentCategory (e : Int) : String :=
  if e < 50 then "small_business"
  else if e < 500 then "mid_market"
  else "enterprise"

/-- `EnricherAgent.categorize_company`. -/
def categorize_company (cd : Dict) : String :=
  segmentCategory (getInt cd "employee_count" 0)

def pain_indicators : List String :=
  ["looking for", "need help", "challenge", "problem",
   "struggling", "difficulty", "improve", "better solution"]

/-- The candidate pain point extracted around a match at index `idx`:
`text[max(0, idx-50):idx+100].strip()` (truncated `Nat` subtraction equals
the `max(0, idx-50)` of the source). -/
def painWindowAt (text : List Char) (idx : Nat) : String :=
  pyStrip (pySlice text (idx - 50) (idx + 100)).asString

/-- `EnricherAgent.identify_pain_points`: per event and indicator in source
order, test `indicator in text` and, when it matches, append the stripped
context window around `text.find(indicator)`.  The `.getD 0` default of the
embedded `find` is dead code: the containment guard guarantees a hit, exactly
as it shields the `-1` of Python `find`. -/
def identify_pain_points (events : List Event) : List String :=
  (events.foldl (fun acc event =>
    let text := (eventText event).toList
    pain_indicators.foldl (fun acc2 ind =>
      if listContains text ind.toList then
        acc2 ++ [painWindowAt text ((findSub text ind.toList).getD 0)]
      else acc2) acc) []).take 5

/-- `EnricherAgent.execute`.  The LLM call of `enrich_from_events` is
abstracted by the oracle pair `hasLLM` (an API key is configured) and
`enriched_data` (the parsed LLM output; `[]` when the call or the JSON parse
fails, which is what `enrich_from_events` returns then). -/
def EnricherAgent.execute (hasLLM : Bool) (enriched_data : Dict)
    (st : AgentState) : AgentState :=
  if dictFalsy st.company_data then
    { st with errors := st.errors ++ ["No company data to enrich"] }
  else
    let cd0 := st.company_data.getD []
    let cd1 := if hasLLM && !st.events.isEmpty then aupdate cd0 enriched_data
               else cd0
    let tech_stack := extract_tech_stack st.events
    let cd2 := aset cd1 "tech_stack" (.vlist tech_stack)
    let category := categorize_company cd2
    let cd3 := aset cd2 "category" (.vstr category)
    { st with company_data := .some cd3 }

/-! ## BaseAgent stage contract (`src/libs/agents/base_agent.py`) -/

/-- A Python stage step: it returns the state or raises; an exception carries
its message together with the state as mutated up to the raise point (Python
mutates the state object in place, so those mutations survive the raise). -/
abbrev StepFun := AgentState → Except (String × AgentState) AgentState

/-- `BaseAgent.pre_execute`: record the start timestamp in the metadata and
emit the start observation (the log emission itself carries no state). -/
def pre_execute (agent_type nowIso : String) (st : AgentState) : AgentState :=
  { st with metadata := aset st.metadata (agent_type ++ "_start_time") nowIso }

/-- `BaseAgent.post_execute`: record the end timestamp in the metadata; the
duration is computed from the stored start time only for the log line. -/
def post_execute (agent_type nowIso : String) (st : AgentState) : AgentState :=
  { st with metadata := aset st.metadata (agent_type ++ "_end_time") nowIso }

/-- `BaseAgent.run`: the `try` covers all three steps; the hooks as modelled
are total (their bodies cannot raise), so only `exec` can enter the `except`
branch, which appends `"<agent_type>: <message>"` to the error list of the
state as mutated so far and returns it. -/
def BaseAgent.run (agent_type startIso endIso : String) (exec : StepFun)
    (state : AgentState) : AgentState :=
  let s1 := pre_execute agent_type startIso state
  match exec s1 with
  | .ok s2 => post_execute agent_type endIso s2
  | .error (msg, sE) =>
    { sE with errors := sE.errors ++ [agent_type ++ ": " ++ msg] }

/-! ## PoliteCrawler (`src/services/crawler/crawler.py`) -/

/-- A network operation performed by the crawler. -/
inductive NetOp where
  | robotsGet (domain : String)
  | pageGet (url : String)
deriving Repr, DecidableEq

/-- Outcome of the HTTP GET for a page (the `httpx` call of `fetch_url`). -/
inductive GetOutcome where
  | response (status : Nat) (text : String)
  | timeout
  | exc (msg : String)

/-- Outcome of the HTTP GET for `/robots.txt`.  A 200 body is abstracted
directly to the ruleset `parse` would produce from it. -/
inductive RobotsOutcome where
  | status (code : Nat) (rules : String → String → Bool)
  | failure (msg : String)

/-- CPython `urllib.robotparser.RobotFileParser`, with the parsed entry list
abstracted to the function `rules : useragent → url → allowed`.  The control
flags reproduce CPython `can_fetch` exactly; in particular a parser on which
`parse` was never called still has `last_checked` unset and denies every URL. -/
structure RobotFileParser where
  disallow_all : Bool := false
  allow_all : Bool := false
  last_checked : Bool := false
  rules : String → String → Bool := fun _ _ => true

/-- CPython `RobotFileParser.can_fetch`. -/
def RobotFileParser.can_fetch (p : RobotFileParser) (useragent url : String) :
    Bool :=
  if p.disallow_all then false
  else if p.allow_all then true
  else if !p.last_checked then false
  else p.rules useragent url

/-- CPython `RobotFileParser.parse`: sets `last_checked` (via `modified()`)
and installs the parsed ruleset. -/
def RobotFileParser.parse (p : RobotFileParser)
    (rules : String → String → Bool) : RobotFileParser :=
  { p with last_checked := true, rules := rules }

/-- The fixed identifying user agent of `PoliteCrawler`. -/
def crawler_user_agent : String :=
  "LeadQualificationBot/1.0 (polite crawler; +https://example.com/bot)"

def respect_robots_txt : Bool := true

/-- The host part of the URL after the scheme separator, cut at the first
path, query or fragment delimiter (`urlparse(...).netloc`). -/
def netlocOf (afterScheme : String) : String :=
  (afterScheme.toList.takeWhile
    (fun c => !(c == '/' || c == '?' || c == '#'))).asString

/-- The robots-cache key `f"{parsed.scheme}://{parsed.netloc}"`: the scheme
is everything before the first `://`, the netloc everything after it up to
the first delimiter; a URL without `://` has empty scheme and netloc. -/
def schemeHost (url : String) : String :=
  match findSub url.toList "://".toList with
  | .some i =>
    (url.toList.take i).asString ++ "://"
      ++ netlocOf (url.toList.drop (i + 3)).asString
  | .none => "://"

/-- The I/O environment of a crawler run: what each robots GET and each page
GET would return. -/
structure CrawlerEnv where
  robots : String → RobotsOutcome
  get : String → GetOutcome

abbrev RobotsCache := List (String × RobotFileParser)

/-- `PoliteCrawler.can_fetch`: on a cache miss, fetch `/robots.txt` once for
the domain; `parse` is called only on a 200 response — on any other status or
on a fetch failure the fresh parser is cached untouched (the source comment
there reads "No robots.txt or error, allow crawling").  Returns the verdict,
the updated cache and the network operations performed. -/
def can_fetch (env : CrawlerEnv) (cache : RobotsCache) (url : String) :
    Bool × RobotsCache × List NetOp :=
  if !respect_robots_txt then (true, cache, [])
  else
    let domain := schemeHost url
    let (cache2, ops) :=
      if (alookup domain cache).isSome then (cache, ([] : List NetOp))
      else
        let parser0 : RobotFileParser := {}
        let parser1 :=
          match env.robots domain with
          | .status code rules =>
            if code = 200 then parser0.parse rules else parser0
          | .failure _ => parser0
        (aset cache domain parser1, [NetOp.robotsGet domain])
    let parser := (alookup domain cache2).getD {}
    (parser.can_fetch crawler_user_agent url, cache2, ops)

/-- The result dictionaries of `PoliteCrawler.fetch_url` as a sum: the success
dictionary (content extraction abstracted to the raw body) or one of the four
error dictionaries. -/
inductive FetchOutcome where
  | success (url : String) (status : Nat) (text : String)
  | blocked (url : String)
  | http_error (url : String) (status : Nat)
  | timeout (url : String)
  | other (url : String) (msg : String)
deriving Repr, DecidableEq

/-- `PoliteCrawler.fetch_url`: consult `can_fetch` first and return `blocked`
without touching the page when it denies; otherwise rate-limit (pure time
bookkeeping, no network operation, cannot raise) and issue the single GET.
`raise_for_status` raises for every non-2xx status, caught as `http_error`
with the status code; `httpx.TimeoutException` is caught as `timeout`; any
other exception is caught as `other` with its message. -/
def fetch_url (env : CrawlerEnv) (cache : RobotsCache) (url : String) :
    FetchOutcome × RobotsCache × List NetOp :=
  let (allowed, cache2, ops) := can_fetch env cache url
  if !allowed then (.blocked url, cache2, ops)
  else
    let res : FetchOutcome :=
      match env.get url with
      | .response s t =>
        if 200 ≤ s ∧ s < 300 then .success url s t else .http_error url s
      | .timeout => .timeout url
      | .exc m => .other url m
    (res, cache2, ops ++ [.pageGet url])

/-! ## WorkerService dispatcher (`src/services/workers/worker.py`) -/

/-- A consumed message, restricted to the routing fields the dispatcher
reads: the topic and the `action_type` field of its JSON payload. -/
structure KMessage where
  topic : String
  action_type : String := ""
deriving Repr, DecidableEq

/-- Handler-body oracles: each inner handler either returns or raises with a
message.  The routing around them is what the source fixes and what the
claims are about. -/
structure WorkerEnv where
  process_raw_event : KMessage → Except String Unit
  process_clean_event : KMessage → Except String Unit
  process_signal : KMessage → Except String Unit
  run_agent_playbook : KMessage → Except String Unit
  generate_proposal : KMessage → Except String Unit
  sync_crm : KMessage → Except String Unit

/-- `WorkerService.process_action`: route by `action_type`; an unknown type
falls through the if-chain — nothing is invoked and nothing is raised (the
message was already logged at the top of the handler).  Returns the names of
the invoked handlers. -/
def process_action (env : WorkerEnv) (m : KMessage) :
    Except String (List String) :=
  if m.action_type = "run_agent" then
    (env.run_agent_playbook m).map (fun _ => ["run_agent_playbook"])
  else if m.action_type = "generate_proposal" then
    (env.generate_proposal m).map (fun _ => ["generate_proposal"])
  else if m.action_type = "crm_sync" then
    (env.sync_crm m).map (fun _ => ["sync_crm"])
  else .ok []

/-- `WorkerService.process_message`: route by topic inside a per-message
`try`; a handler fault is caught and logged, never re-raised. -/
def process_message (env : WorkerEnv) (m : KMessage) : List String :=
  let dispatched : Except String (List String) :=
    if m.topic = "raw.events" then
      (env.process_raw_event m).map (fun _ => ["process_raw_event"])
    else if m.topic = "clean.events" then
      (env.process_clean_event m).map (fun _ => ["process_clean_event"])
    else if m.topic = "signals.detected" then
      (env.process_signal m).map (fun _ => ["process_signal"])
    else if m.topic = "actions.triggered" then process_action env m
    else .ok []
  match dispatched with
  | .ok calls => calls
  | .error _ => []

/-- The consumer loop body of `WorkerService.run`: one `process_message` per
inbound message, in order. -/
def worker_loop (env : WorkerEnv) (msgs : List KMessage) : List (List String) :=
  msgs.map (process_message env)

/-- The dictionary shape `EnricherAgent.execute` produces from the merged
dictionary `cd1`: `tech_stack` assigned, then `category` computed from the
resulting dictionary and assigned. -/
def enrichedDict (cd1 : Dict) (ts : List String) : Dict :=
  let cd2 := aset cd1 "tech_stack" (Value.vlist ts)
  aset cd2 "category" (.vstr (categorize_company cd2))

/-- Invariant of the `found_tech` accumulator: duplicate-free, every entry
the title-cased form of a keyword. -/
def TechAcc (l : List String) : Prop :=
  l.Nodup ∧ ∀ t ∈ l, ∃ kw ∈ tech_keywords, t = pyTitle kw

/-- A robots environment whose `/robots.txt` fetch yields HTTP 404 for every
domain (the permissive ruleset argument is irrelevant: it is never parsed). -/
def robots404Env : CrawlerEnv :=
  { robots := fun _ => .status 404 (fun _ _ => true)
    get := fun _ => .response 200 "" }

/-- A crawler environment with a permissive parsed robots policy whose page
GETs all time out. -/
def crawlerWitnessEnv : CrawlerEnv :=
  { robots := fun _ => .status 200 (fun _ _ => true)
    get := fun _ => .timeout }

def enricherWitnessEvent : Event := { text := "we use aws", title := "migrating" }

/-- A concrete state for the enricher witness: existing attributes plus one
event mentioning a tech keyword. -/
def enricherWitnessState : AgentState :=
  { company_data := .some [("employee_count", Value.vint 120),
      ("notes", Value.vstr "keep")]
    events := [enricherWitnessEvent] }

/-- A stage whose `run` body raises immediately, carrying the unchanged
state out with the exception. -/
def failingStep : StepFun := fun s => .error ("boom", s)

/-- A worker environment whose every handler body raises. -/
def crashingWorkerEnv : WorkerEnv :=
  { process_raw_event := fun _ => .error "crash"
    process_clean_event := fun _ => .error "crash"
    process_signal := fun _ => .error "crash"
    run_agent_playbook := fun _ => .error "crash"
    generate_proposal := fun _ => .error "crash"
    sync_crm := fun _ => .error "crash" }

def kUnknownMsg : KMessage :=
  { topic := "actions.triggered", action_type := "unknown_type" }

/-- Recency component of the timing score in the words of the claim: 50
points when an event lies in the last 7 days, else 35 when one lies in the
last 30 days, else 20 when one lies in the last 90 days, else 0. -/
def recencyComponentSpec (now : ℚ) (events : List Event) : ℚ :=
  if events.any (fun e => is_recent now e.timestamp 7) then 50
  else if events.any (fun e => is_recent now e.timestamp 30) then 35
  else if events.any (fun e => is_recent now e.timestamp 90) then 20
  else 0

/-- Velocity component of the timing score in the words of the claim: 50
points when the count of events in the last 30 days exceeds the count in the
31–90-day window, else 25 when there is any event in the last 30 days,
else 0. -/
def velocityComponentSpec (now : ℚ) (events : List Event) : ℚ :=
  let c30 := (events.filter (fun e => is_recent now e.timestamp 30)).length
  let cWindow := (events.filter (fun e =>
    is_recent now e.timestamp 90 && !is_recent now e.timestamp 30)).length
  if cWindow < c30 then 50
  else if 0 < c30 then 25
  else 0

/-- The candidate pain-point list in the words of the claim: per event in
order, per indicator in list order, the context window around the first match
of that indicator in the event text. -/
def painScanSpec (events : List Event) : List String :=
  events.flatMap (fun event =>
    pain_indicators.filterMap (fun ind =>
      (findSub (eventText event).toList ind.toList).map
        (fun idx => painWindowAt (eventText event).toList idx)))

/-! ## Theorems -/

theorem alookup_map_set {β : Type} (d : List (String × β)) (k : String) (v : β)
    (h : (alookup k d).isSome) :
    alookup k (d.map (fun p => if p.1 = k then (k, v) else p)) = .some v := by
  induction d with
  | nil => simp [alookup] at h
  | cons p rest ih =>
    by_cases hk : p.1 = k
    · simp [List.map_cons, if_pos hk, alookup]
    · simp only [alookup, if_neg hk] at h
      simp only [List.map_cons, if_neg hk, alookup]
      exact ih h

theorem alookup_map_set_ne {β : Type} (d : List (String × β)) (k k' : String) (v : β)
    (h : k ≠ k') :
    alookup k (d.map (fun p => if p.1 = k' then (k', v) else p)) = alookup k d := by
  induction d with
  | nil => rfl
  | cons p rest ih =>
    by_cases hk : p.1 = k'
    · have h2 : ¬ p.1 = k := by rw [hk]; exact Ne.symm h
      simp only [List.map_cons, if_pos hk, alookup]
      rw [if_neg (Ne.symm h), if_neg h2]
      exact ih
    · simp only [List.map_cons, if_neg hk, alookup]
      split
      · rfl
      · exact ih

theorem alookup_append_right {β : Type} (d : List (String × β)) (k : String) (v : β)
    (h : alookup k d = .none) : alookup k (d ++ [(k, v)]) = .some v := by
  induction d with
  | nil => simp [alookup]
  | cons p rest ih =>
    by_cases hk : p.1 = k
    · simp [alookup, hk] at h
    · simp only [alookup, if_neg hk] at h
      simp only [List.cons_append, alookup]
      rw [if_neg hk]
      exact ih h

theorem alookup_append_ne {β : Type} (d : List (String × β)) (k k' : String) (v : β)
    (h : k ≠ k') : alookup k (d ++ [(k', v)]) = alookup k d := by
  induction d with
  | nil =>
    simp only [List.nil_append, alookup]
    rw [if_neg (Ne.symm h)]
  | cons p rest ih =>
    simp only [List.cons_append, alookup]
    split
    · rfl
    · exact ih

theorem alookup_aset_self {β : Type} (d : List (String × β)) (k : String) (v : β) :
    alookup k (aset d k v) = .some v := by
  unfold aset
  split
  · exact alookup_map_set d k v (by assumption)
  · rename_i h
    refine alookup_append_right d k v ?_
    cases hd : alookup k d
    · rfl
    · rw [hd] at h
      simp at h

theorem alookup_aset_ne {β : Type} (d : List (String × β)) (k k' : String) (v : β)
    (h : k ≠ k') : alookup k (aset d k' v) = alookup k d := by
  unfold aset
  split
  · exact alookup_map_set_ne d k k' v h
  · exact alookup_append_ne d k k' v h

theorem alookup_aupdate_none {β : Type} (d e : List (String × β)) (k : String)
    (h : alookup k e = .none) : alookup k (aupdate d e) = alookup k d := by
  induction e generalizing d with
  | nil => rfl
  | cons p rest ih =>
    simp only [alookup] at h
    by_cases hk : p.1 = k
    · rw [if_pos hk] at h
      cases h
    · rw [if_neg hk] at h
      unfold aupdate at ih ⊢
      simp only [List.foldl_cons]
      rw [ih (aset d p.1 p.2) h, alookup_aset_ne d k p.1 p.2 (fun hh => hk hh.symm)]

theorem roundHalfEven_intCast (n : ℤ) : roundHalfEven (n : ℚ) = n := by
  unfold roundHalfEven
  norm_num

theorem roundHalfEven_nonneg {x : ℚ} (h : 0 ≤ x) : 0 ≤ roundHalfEven x := by
  unfold roundHalfEven
  have hf : (0 : ℤ) ≤ ⌊x⌋ := Int.floor_nonneg.mpr h
  split
  · exact hf
  · split
    · omega
    · split <;> omega

theorem roundHalfEven_le {x : ℚ} {m : ℤ} (h : x ≤ (m : ℚ)) :
    roundHalfEven x ≤ m := by
  unfold roundHalfEven
  have hf : ⌊x⌋ ≤ m := by
    have := Int.floor_mono h
    rwa [Int.floor_intCast] at this
  split
  · exact hf
  · rename_i h1
    push_neg at h1
    have hfl : (⌊x⌋ : ℚ) ≤ x := Int.floor_le x
    have hlt : ⌊x⌋ < m := by
      have hq : (⌊x⌋ : ℚ) < (m : ℚ) := by linarith
      exact_mod_cast hq
    split
    · omega
    · split <;> omega

theorem round2_nonneg {x : ℚ} (h : 0 ≤ x) : 0 ≤ round2 x := by
  unfold round2
  have := roundHalfEven_nonneg (x := x * 100) (by positivity)
  positivity

theorem round2_le_100 {x : ℚ} (h : x ≤ 100) : round2 x ≤ 100 := by
  unfold round2
  have h1 : x * 100 ≤ ((10000 : ℤ) : ℚ) := by push_cast; linarith
  have h2 := roundHalfEven_le h1
  have h3 : ((roundHalfEven (x * 100)) : ℚ) ≤ 10000 := by exact_mod_cast h2
  linarith

theorem HalfInt.intCast (n : ℤ) : HalfInt (n : ℚ) := ⟨2 * n, by push_cast; ring⟩

theorem HalfInt.add {a b : ℚ} (ha : HalfInt a) (hb : HalfInt b) :
    HalfInt (a + b) := by
  obtain ⟨m, hm⟩ := ha
  obtain ⟨n, hn⟩ := hb
  exact ⟨m + n, by push_cast; linarith⟩

theorem HalfInt.min {a b : ℚ} (ha : HalfInt a) (hb : HalfInt b) :
    HalfInt (Min.min a b) := by
  rcases le_total a b with h | h
  · rwa [min_eq_left h]
  · rwa [min_eq_right h]

theorem HalfInt.ite {c : Prop} [Decidable c] {a b : ℚ} (ha : HalfInt a)
    (hb : HalfInt b) : HalfInt (if c then a else b) := by
  split <;> assumption

theorem HalfInt.natMul (n : ℕ) {c : ℚ} (hc : HalfInt c) : HalfInt ((n : ℚ) * c) := by
  obtain ⟨m, hm⟩ := hc
  exact ⟨n * m, by push_cast [← hm]; ring⟩

theorem round2_eq_self_of_halfInt {q : ℚ} (h : HalfInt q) : round2 q = q := by
  obtain ⟨n, hn⟩ := h
  unfold round2
  have h100 : q * 100 = ((50 * n : ℤ) : ℚ) := by push_cast; linarith
  rw [h100, roundHalfEven_intCast]
  push_cast
  linarith


/-- C3: for every employee count, the size component of the fit score lies in
{0, 10, 20, 30} and follows the documented brackets — 30 points for 200–5000,
20 points for 50–200 or 5000–10000, 10 points for any other positive count,
0 for an unknown or zero count; in particular 300 ↦ 30, 100 ↦ 20, 20 ↦ 10,
0 ↦ 0. -/
theorem fit_size_component_brackets (e : Int) :
    (fit_size_component e = 0 ∨ fit_size_component e = 10 ∨
     fit_size_component e = 20 ∨ fit_size_component e = 30) ∧
    (200 ≤ e ∧ e ≤ 5000 → fit_size_component e = 30) ∧
    ((50 ≤ e ∧ e < 200) ∨ (5000 < e ∧ e ≤ 10000) → fit_size_component e = 20) ∧
    ((0 < e ∧ e < 50) ∨ 10000 < e → fit_size_component e = 10) ∧
    (e ≤ 0 → fit_size_component e = 0) ∧
    fit_size_component 300 = 30 ∧ fit_size_component 100 = 20 ∧
    fit_size_component 20 = 10 ∧ fit_size_component 0 = 0 := by
  unfold fit_size_component
  refine ⟨?_, ?_, ?_, ?_, ?_, by norm_num, by norm_num, by norm_num, by norm_num⟩ <;>
    split_ifs <;> simp_all <;> omega

/-- C3 witness: the bracket theorem applied at employee count 300. -/
theorem fit_size_component_brackets_witness :
    (200 ≤ (300 : Int) ∧ (300 : Int) ≤ 5000) ∧ fit_size_component 300 = 30 :=
  ⟨by norm_num, (fit_size_component_brackets 300).2.1 (by norm_num)⟩

/-- C4: the Scoring Stage is idempotent: with the evaluation time held
fixed, executing the scorer twice on an unchanged state stores the same
`ScoreSet` (all four numeric scores and both qualification booleans) as
executing it once — every component is recomputed fresh from the current
inputs and no incremental state survives between runs. -/
theorem scorer_idempotent (now : ℚ) (st : AgentState) :
    (ScorerAgent.execute now (ScorerAgent.execute now st)).scores =
      (ScorerAgent.execute now st).scores := by
  by_cases h : dictFalsy st.company_data
  · simp [ScorerAgent.execute, h]
  · simp [ScorerAgent.execute, h, check_bant_qualification,
      check_champ_qualification]

/-- C2 counterexample: for a stage whose `run` step raises, `execute` does
NOT emit the after hook: the end-timestamp key is absent from the returned
metadata (the claim asserts the end-timestamp/duration observation is still
emitted).  The error-capture half of the claim does hold: the fault is
appended as `"<agent_type>: <message>"`. -/
theorem stage_after_hook_skipped_cex :
    alookup "scorer_end_time"
      (BaseAgent.run "scorer" "2024-01-01T00:00:00" "2024-01-01T00:00:05"
        failingStep {}).metadata = .none ∧
    (BaseAgent.run "scorer" "2024-01-01T00:00:00" "2024-01-01T00:00:05"
        failingStep {}).errors = ["scorer: boom"] := by
  constructor <;> rfl

/-- C2 (amended): if the stage's `run` step raises, `execute` skips the after
hook (so no end-timestamp/duration observation is emitted), appends the fault
to `state.errors` formatted as `"<agent_type>: <message>"`, and returns the
state as mutated up to the raise point otherwise intact — no other field is
cleared or replaced. -/
theorem stage_fault_capture (agent_type startIso endIso : String)
    (exec : StepFun) (state sE : AgentState) (msg : String)
    (h : exec (pre_execute agent_type startIso state) = .error (msg, sE)) :
    BaseAgent.run agent_type startIso endIso exec state =
      { sE with errors := sE.errors ++ [agent_type ++ ": " ++ msg] } := by
  simp [BaseAgent.run, h]

/-- C2 witness: the amended fault-capture theorem at a concrete failing
stage. -/
theorem stage_fault_capture_witness :
    BaseAgent.run "scorer" "t0" "t1" failingStep {} =
      { pre_execute "scorer" "t0" {} with
        errors := (pre_execute "scorer" "t0" {}).errors ++ ["scorer" ++ ": " ++ "boom"] } :=
  stage_fault_capture "scorer" "t0" "t1" failingStep {}
    (pre_execute "scorer" "t0" {}) "boom" rfl

/-- C9: an `actions.triggered` message whose `action_type` is none of the
known types is consumed without invoking any handler and without raising (it
is logged and dropped; log emission itself is stateless and not modelled),
and the consumption loop processes every message regardless of handler
faults, which are caught per message. -/
theorem dispatcher_unknown_action (env : WorkerEnv) (m : KMessage)
    (htopic : m.topic = "actions.triggered")
    (h1 : m.action_type ≠ "run_agent")
    (h2 : m.action_type ≠ "generate_proposal")
    (h3 : m.action_type ≠ "crm_sync") :
    process_action env m = .ok [] ∧
    process_message env m = [] ∧
    ∀ msgs : List KMessage, (worker_loop env msgs).length = msgs.length := by
  refine ⟨?_, ?_, ?_⟩
  · simp [process_action, h1, h2, h3]
  · simp [process_message, htopic, process_action, h1, h2, h3]
  · intro msgs
    simp [worker_loop]

/-- C9 witness: the dispatcher theorem at a concrete unknown-type message in
an environment whose handlers all crash. -/
theorem dispatcher_unknown_action_witness :
    process_action crashingWorkerEnv kUnknownMsg = .ok [] ∧
    process_message crashingWorkerEnv kUnknownMsg = [] ∧
    (worker_loop crashingWorkerEnv [kUnknownMsg, kUnknownMsg]).length = 2 :=
  ⟨(dispatcher_unknown_action crashingWorkerEnv kUnknownMsg rfl (by decide)
      (by decide) (by decide)).1,
   (dispatcher_unknown_action crashingWorkerEnv kUnknownMsg rfl (by decide)
      (by decide) (by decide)).2.1,
   (dispatcher_unknown_action crashingWorkerEnv kUnknownMsg rfl (by decide)
      (by decide) (by decide)).2.2 [kUnknownMsg, kUnknownMsg]⟩

theorem filter_ne_nil_iff_any {α : Type} (p : α → Bool) (l : List α) :
    l.filter p ≠ [] ↔ l.any p = true := by
  induction l with
  | nil => simp
  | cons a t ih => by_cases h : p a <;> simp [List.filter_cons, h, ih]

theorem is_recent_mono {now : ℚ} {ts : Option ℚ} {d1 d2 : ℚ} (hd : d1 ≤ d2)
    (h : is_recent now ts d1 = true) : is_recent now ts d2 = true := by
  cases ts with
  | none => simp [is_recent] at h
  | some t =>
    simp only [is_recent, decide_eq_true_eq] at h ⊢
    have : d1 * 86400 ≤ d2 * 86400 := by nlinarith
    linarith

theorem length_filter_split {α : Type} (p q : α → Bool) (l : List α)
    (himp : ∀ x ∈ l, p x = true → q x = true) :
    (l.filter q).length =
      (l.filter p).length + (l.filter (fun x => q x && !p x)).length := by
  induction l with
  | nil => rfl
  | cons a t ih =>
    have ih2 := ih (fun x hx h => himp x (List.mem_cons_of_mem a hx) h)
    by_cases hp : p a = true
    · have hq := himp a (List.mem_cons_self a t) hp
      simp [List.filter_cons, hp, hq, ih2]
      omega
    · by_cases hq : q a = true
      · simp [List.filter_cons, hp, hq, ih2]
        omega
      · simp [List.filter_cons, hp, hq, ih2]

/-- C7: the timing score equals the sum of the recency component and the
velocity component as the claim words them (the code compares the 30-day
count against `len(recent_90d) - len(recent_30d)`, which equals the count of
the 31–90-day window because every 30-day-recent event is 90-day-recent), and
that sum never exceeds 100. -/
theorem timing_score_decomposition (now : ℚ) (events : List Event)
    (signals : List Signal) :
    calculate_timing_score now events signals =
      recencyComponentSpec now events + velocityComponentSpec now events ∧
    recencyComponentSpec now events + velocityComponentSpec now events ≤ 100 := by
  have hle : recencyComponentSpec now events + velocityComponentSpec now events
      ≤ 100 := by
    unfold recencyComponentSpec velocityComponentSpec
    dsimp only
    split_ifs <;> norm_num
  refine ⟨?_, hle⟩
  have hsplit := length_filter_split (fun e => is_recent now e.timestamp 30)
    (fun e => is_recent now e.timestamp 90) events
    (fun e _ h => is_recent_mono (by norm_num) h)
  dsimp only at hsplit
  have e7 := filter_ne_nil_iff_any (fun e => is_recent now e.timestamp 7) events
  have e30 := filter_ne_nil_iff_any (fun e => is_recent now e.timestamp 30) events
  have e90 := filter_ne_nil_iff_any (fun e => is_recent now e.timestamp 90) events
  have ev : ((events.filter (fun e => is_recent now e.timestamp 30)).length : ℤ)
      > ((events.filter (fun e => is_recent now e.timestamp 90)).length : ℤ)
        - ((events.filter (fun e => is_recent now e.timestamp 30)).length : ℤ)
      ↔ (events.filter (fun e =>
          is_recent now e.timestamp 90 && !is_recent now e.timestamp 30)).length
        < (events.filter (fun e => is_recent now e.timestamp 30)).length := by
    omega
  unfold calculate_timing_score recencyComponentSpec velocityComponentSpec
  dsimp only
  rw [if_congr e7 rfl (if_congr e30 rfl (if_congr e90 rfl rfl)),
      if_congr ev rfl rfl]
  refine min_eq_left ?_
  split_ifs <;> norm_num

theorem contains_iff_findSub (hay needle : List Char) :
    listContains hay needle = (findSub hay needle).isSome := by
  induction hay with
  | nil =>
    by_cases h : needle.isEmpty <;> simp [listContains, findSub, h]
  | cons c t ih =>
    by_cases h : needle.isPrefixOf (c :: t) <;>
      simp [listContains, findSub, h, ih]

theorem pain_fold_inner (text : List Char) (inds : List String)
    (acc : List String) :
    inds.foldl (fun acc2 ind =>
      if listContains text ind.toList then
        acc2 ++ [painWindowAt text ((findSub text ind.toList).getD 0)]
      else acc2) acc
    = acc ++ inds.filterMap (fun ind =>
        (findSub text ind.toList).map (fun idx => painWindowAt text idx)) := by
  induction inds generalizing acc with
  | nil => simp
  | cons i t ih =>
    simp only [List.foldl_cons, List.filterMap_cons]
    cases h : findSub text i.toList with
    | none =>
      have hc : listContains text i.toList = false := by
        rw [contains_iff_findSub, h]
        rfl
      rw [hc]
      simp only [Bool.false_eq_true, if_false, h, Option.map_none']
      exact ih acc
    | some idx =>
      have hc : listContains text i.toList = true := by
        rw [contains_iff_findSub, h]
        rfl
      rw [hc]
      simp only [if_true, h, Option.getD_some, Option.map_some']
      rw [ih]
      simp

theorem pain_fold_outer (events : List Event) (acc : List String) :
    events.foldl (fun acc1 event =>
      pain_indicators.foldl (fun acc2 ind =>
        if listContains (eventText event).toList ind.toList then
          acc2 ++ [painWindowAt (eventText event).toList
            ((findSub (eventText event).toList ind.toList).getD 0)]
        else acc2) acc1) acc
    = acc ++ painScanSpec events := by
  induction events generalizing acc with
  | nil => simp [painScanSpec]
  | cons e t ih =>
    simp only [List.foldl_cons]
    rw [pain_fold_inner, ih]
    simp [painScanSpec, List.flatMap_cons]

/-- C8: pain-point extraction returns exactly the first five entries of the
scan list — per event and per indicator in fixed order, the context window
from 50 characters before to 100 characters after the first match — so it
yields at most 5 candidates, first found first returned. -/
theorem pain_points_scan (events : List Event) :
    identify_pain_points events = (painScanSpec events).take 5 ∧
    (identify_pain_points events).length ≤ 5 := by
  have hmain : identify_pain_points events = (painScanSpec events).take 5 := by
    unfold identify_pain_points
    dsimp only
    rw [pain_fold_outer]
    simp
  refine ⟨hmain, ?_⟩
  rw [hmain]
  simp only [List.length_take]
  omega

theorem halfInt_industry (cd : Dict) : HalfInt (industryComponent cd) := by
  unfold industryComponent
  exact HalfInt.ite ⟨60, by norm_num⟩ ⟨0, by norm_num⟩

theorem halfInt_size (e : Int) : HalfInt (fit_size_component e) := by
  unfold fit_size_component
  exact HalfInt.ite ⟨60, by norm_num⟩ (HalfInt.ite ⟨40, by norm_num⟩
    (HalfInt.ite ⟨20, by norm_num⟩ ⟨0, by norm_num⟩))

theorem halfInt_tech (cd : Dict) : HalfInt (techStackComponent cd) :=
  HalfInt.min (HalfInt.natMul _ ⟨10, by norm_num⟩) ⟨40, by norm_num⟩

theorem halfInt_funding (cd : Dict) : HalfInt (fundingComponent cd) :=
  HalfInt.add (HalfInt.ite ⟨20, by norm_num⟩ ⟨0, by norm_num⟩)
    (HalfInt.ite ⟨20, by norm_num⟩ ⟨0, by norm_num⟩)

theorem halfInt_fit (cd : Dict) : HalfInt (calculate_fit_score cd) :=
  HalfInt.min ((((halfInt_industry cd).add (halfInt_size _)).add
    (halfInt_tech cd)).add (halfInt_funding cd)) ⟨200, by norm_num⟩

theorem halfInt_intent (now : ℚ) (events : List Event) (signals : List Signal) :
    HalfInt (calculate_intent_score now events signals) := by
  unfold calculate_intent_score hiringComponent techAdoptionComponent
    fundingSignalComponent expansionComponent painPointComponent
  refine HalfInt.min (HalfInt.add (HalfInt.add (HalfInt.add (HalfInt.add
    ?_ ?_) ?_) ?_) ?_) ⟨200, by norm_num⟩
  · exact HalfInt.min (HalfInt.natMul _ ⟨10, by norm_num⟩) ⟨60, by norm_num⟩
  · exact HalfInt.min (HalfInt.natMul _ ⟨25, by norm_num⟩) ⟨50, by norm_num⟩
  · exact HalfInt.ite ⟨0, by norm_num⟩ ⟨40, by norm_num⟩
  · exact HalfInt.min (HalfInt.natMul _ ⟨15, by norm_num⟩) ⟨30, by norm_num⟩
  · exact HalfInt.min (HalfInt.natMul _ ⟨10, by norm_num⟩) ⟨20, by norm_num⟩

theorem halfInt_timing (now : ℚ) (events : List Event) (signals : List Signal) :
    HalfInt (calculate_timing_score now events signals) := by
  unfold calculate_timing_score
  dsimp only
  refine HalfInt.min (HalfInt.add ?_ ?_) ⟨200, by norm_num⟩
  · exact HalfInt.ite ⟨100, by norm_num⟩ (HalfInt.ite ⟨70, by norm_num⟩
      (HalfInt.ite ⟨40, by norm_num⟩ ⟨0, by norm_num⟩))
  · exact HalfInt.ite ⟨100, by norm_num⟩ (HalfInt.ite ⟨50, by norm_num⟩
      ⟨0, by norm_num⟩)

theorem fit_score_nonneg (cd : Dict) : 0 ≤ calculate_fit_score cd := by
  unfold calculate_fit_score
  refine le_min ?_ (by norm_num)
  have h1 : (0:ℚ) ≤ industryComponent cd := by
    unfold industryComponent; split_ifs <;> norm_num
  have h2 : (0:ℚ) ≤ fit_size_component (getInt cd "employee_count" 0) := by
    unfold fit_size_component; split_ifs <;> norm_num
  have h3 : (0:ℚ) ≤ techStackComponent cd := by
    unfold techStackComponent
    exact le_min (by positivity) (by norm_num)
  have h4 : (0:ℚ) ≤ fundingComponent cd := by
    unfold fundingComponent; split_ifs <;> norm_num
  linarith

theorem fit_score_le_100 (cd : Dict) : calculate_fit_score cd ≤ 100 :=
  min_le_right _ _

theorem intent_score_nonneg (now : ℚ) (events : List Event)
    (signals : List Signal) : 0 ≤ calculate_intent_score now events signals := by
  unfold calculate_intent_score
  refine le_min ?_ (by norm_num)
  have h1 : (0:ℚ) ≤ hiringComponent now events := by
    unfold hiringComponent
    exact le_min (by positivity) (by norm_num)
  have h2 : (0:ℚ) ≤ techAdoptionComponent signals := by
    unfold techAdoptionComponent
    exact le_min (by positivity) (by norm_num)
  have h3 : (0:ℚ) ≤ fundingSignalComponent signals := by
    unfold fundingSignalComponent; split_ifs <;> norm_num
  have h4 : (0:ℚ) ≤ expansionComponent signals := by
    unfold expansionComponent
    exact le_min (by positivity) (by norm_num)
  have h5 : (0:ℚ) ≤ painPointComponent signals := by
    unfold painPointComponent
    exact le_min (by positivity) (by norm_num)
  linarith

theorem intent_score_le_100 (now : ℚ) (events : List Event)
    (signals : List Signal) : calculate_intent_score now events signals ≤ 100 :=
  min_le_right _ _

theorem timing_score_nonneg (now : ℚ) (events : List Event)
    (signals : List Signal) : 0 ≤ calculate_timing_score now events signals := by
  unfold calculate_timing_score
  dsimp only
  refine le_min ?_ (by norm_num)
  split_ifs <;> norm_num

theorem timing_score_le_100 (now : ℚ) (events : List Event)
    (signals : List Signal) : calculate_timing_score now events signals ≤ 100 := by
  unfold calculate_timing_score
  dsimp only
  exact min_le_right _ _

/-- C1: for every pipeline state with non-falsy company data, the scorer
stores a score set whose fit, intent, timing and overall values all lie in
[0, 100] and whose overall equals `round(0.4*fit + 0.4*intent + 0.2*timing,
2)` computed from the stored (2-decimal-rounded) components — every stored
component is an exact multiple of one half, so its 2-decimal rounding is the
component itself and the two readings of the formula agree. -/
theorem scorer_scores_bounds_and_overall (now : ℚ) (st : AgentState)
    (h : dictFalsy st.company_data = false) :
    (ScorerAgent.execute now st).scores.isSome = true ∧
    0 ≤ (scoresOf (ScorerAgent.execute now st)).fit ∧
    (scoresOf (ScorerAgent.execute now st)).fit ≤ 100 ∧
    0 ≤ (scoresOf (ScorerAgent.execute now st)).intent ∧
    (scoresOf (ScorerAgent.execute now st)).intent ≤ 100 ∧
    0 ≤ (scoresOf (ScorerAgent.execute now st)).timing ∧
    (scoresOf (ScorerAgent.execute now st)).timing ≤ 100 ∧
    0 ≤ (scoresOf (ScorerAgent.execute now st)).overall ∧
    (scoresOf (ScorerAgent.execute now st)).overall ≤ 100 ∧
    (scoresOf (ScorerAgent.execute now st)).overall =
      round2 (0.4 * (scoresOf (ScorerAgent.execute now st)).fit
        + 0.4 * (scoresOf (ScorerAgent.execute now st)).intent
        + 0.2 * (scoresOf (ScorerAgent.execute now st)).timing) := by
  have hF0 := fit_score_nonneg (st.company_data.getD [])
  have hF1 := fit_score_le_100 (st.company_data.getD [])
  have hI0 := intent_score_nonneg now st.events st.signals
  have hI1 := intent_score_le_100 now st.events st.signals
  have hT0 := timing_score_nonneg now st.events st.signals
  have hT1 := timing_score_le_100 now st.events st.signals
  unfold ScorerAgent.execute
  rw [if_neg (by simp [h])]
  simp only [scoresOf, Option.getD_some]
  refine ⟨rfl, round2_nonneg hF0, round2_le_100 hF1, round2_nonneg hI0,
    round2_le_100 hI1, round2_nonneg hT0, round2_le_100 hT1, ?_, ?_, ?_⟩
  · refine round2_nonneg ?_
    unfold fit_weight intent_weight timing_weight
    nlinarith
  · refine round2_le_100 ?_
    unfold fit_weight intent_weight timing_weight
    nlinarith
  · rw [round2_eq_self_of_halfInt (halfInt_fit _),
        round2_eq_self_of_halfInt (halfInt_intent now st.events st.signals),
        round2_eq_self_of_halfInt (halfInt_timing now st.events st.signals)]
    congr 1
    unfold fit_weight intent_weight timing_weight
    ring

theorem enrichedDict_tech (cd1 : Dict) (ts : List String) :
    alookup "tech_stack" (enrichedDict cd1 ts) = .some (.vlist ts) := by
  unfold enrichedDict
  dsimp only
  rw [alookup_aset_ne _ _ _ _ (by decide), alookup_aset_self]

theorem enrichedDict_cat (cd1 : Dict) (ts : List String) :
    alookup "category" (enrichedDict cd1 ts)
      = .some (.vstr (segmentCategory
          (getInt (enrichedDict cd1 ts) "employee_count" 0))) := by
  unfold enrichedDict
  dsimp only
  rw [alookup_aset_self]
  have hemp : getInt (aset (aset cd1 "tech_stack" (Value.vlist ts)) "category"
        (.vstr (categorize_company (aset cd1 "tech_stack" (Value.vlist ts)))))
        "employee_count" 0
      = getInt (aset cd1 "tech_stack" (Value.vlist ts)) "employee_count" 0 := by
    unfold getInt
    rw [alookup_aset_ne _ _ _ _ (by decide)]
  rw [hemp]
  rfl

theorem enrichedDict_frame (cd1 : Dict) (ts : List String) (k : String)
    (hk1 : k ≠ "tech_stack") (hk2 : k ≠ "category") :
    alookup k (enrichedDict cd1 ts) = alookup k cd1 := by
  unfold enrichedDict
  dsimp only
  rw [alookup_aset_ne _ _ _ _ hk2, alookup_aset_ne _ _ _ _ hk1]

theorem techAcc_insert (l : List String) (kw : String)
    (hkw : kw ∈ tech_keywords) (h : TechAcc l) :
    TechAcc (insertUnique l (pyTitle kw)) := by
  unfold insertUnique
  split
  · exact h
  · rename_i hnot
    constructor
    · simp [List.nodup_append, h.1, hnot]
    · intro t ht
      rcases List.mem_append.mp ht with h1 | h1
      · exact h.2 t h1
      · simp only [List.mem_singleton] at h1
        exact ⟨kw, hkw, h1⟩

theorem techAcc_inner (text : String) (kws : List String)
    (hkws : ∀ k ∈ kws, k ∈ tech_keywords) (acc : List String)
    (hacc : TechAcc acc) :
    TechAcc (kws.foldl (fun found2 tech =>
      if strContains text tech then insertUnique found2 (pyTitle tech)
      else found2) acc) := by
  induction kws generalizing acc with
  | nil => exact hacc
  | cons k t ih =>
    simp only [List.foldl_cons]
    refine ih (fun x hx => hkws x (List.mem_cons_of_mem k hx)) _ ?_
    split
    · exact techAcc_insert acc k (hkws k (List.mem_cons_self k t)) hacc
    · exact hacc

theorem techAcc_extract (events : List Event) :
    TechAcc (extract_tech_stack events) := by
  unfold extract_tech_stack
  dsimp only
  suffices h : ∀ acc, TechAcc acc → TechAcc (events.foldl (fun found event =>
      tech_keywords.foldl (fun found2 tech =>
        if strContains (eventText event) tech then
          insertUnique found2 (pyTitle tech)
        else found2) found) acc) from
    h [] ⟨List.nodup_nil, by simp⟩
  intro acc hacc
  induction events generalizing acc with
  | nil => exact hacc
  | cons e t ih =>
    simp only [List.foldl_cons]
    exact ih _ (techAcc_inner (eventText e) tech_keywords (fun k hk => hk)
      acc hacc)

/-- C10: the Enrichment Stage unconditionally overwrites `tech_stack` with
the terms detected in the current events (title-cased keyword forms, no
duplicates) and `category` with the segment derived from the current
employee count; with an empty event list the stored `tech_stack` becomes the
empty list (replacing any pre-existing value); and every other key that the
optional deep-enrichment merge does not touch keeps its previous value. -/
theorem enricher_frame (hasLLM : Bool) (enriched_data : Dict)
    (st : AgentState) (k t : String)
    (h : dictFalsy st.company_data = false)
    (hk1 : k ≠ "tech_stack") (hk2 : k ≠ "category")
    (hk3 : alookup k enriched_data = .none)
    (ht : t ∈ extract_tech_stack st.events) :
    alookup "tech_stack"
      ((EnricherAgent.execute hasLLM enriched_data st).company_data.getD [])
      = .some (.vlist (extract_tech_stack st.events)) ∧
    alookup "tech_stack"
      ((EnricherAgent.execute hasLLM enriched_data
        { st with events := [] }).company_data.getD [])
      = .some (.vlist []) ∧
    alookup "category"
      ((EnricherAgent.execute hasLLM enriched_data st).company_data.getD [])
      = .some (.vstr (segmentCategory (getInt
          ((EnricherAgent.execute hasLLM enriched_data st).company_data.getD [])
          "employee_count" 0))) ∧
    alookup k ((EnricherAgent.execute hasLLM enriched_data st).company_data.getD [])
      = alookup k (st.company_data.getD []) ∧
    (extract_tech_stack st.events).Nodup ∧
    ∃ kw ∈ tech_keywords, t = pyTitle kw := by
  have hex : (EnricherAgent.execute hasLLM enriched_data st).company_data
      = .some (enrichedDict
          (if hasLLM && !st.events.isEmpty then
            aupdate (st.company_data.getD []) enriched_data
          else st.company_data.getD [])
          (extract_tech_stack st.events)) := by
    unfold EnricherAgent.execute enrichedDict
    rw [if_neg (by simp [h])]
  have hex2 : (EnricherAgent.execute hasLLM enriched_data
      { st with events := [] }).company_data
      = .some (enrichedDict (st.company_data.getD [])
          (extract_tech_stack [])) := by
    unfold EnricherAgent.execute enrichedDict
    rw [if_neg (by simp [h])]
    simp
  refine ⟨?_, ?_, ?_, ?_, (techAcc_extract st.events).1,
    (techAcc_extract st.events).2 t ht⟩
  · rw [hex, Option.getD_some, enrichedDict_tech]
  · rw [hex2, Option.getD_some]
    exact enrichedDict_tech _ []
  · rw [hex, Option.getD_some]
    exact enrichedDict_cat _ _
  · rw [hex, Option.getD_some, enrichedDict_frame _ _ _ hk1 hk2]
    by_cases hllm : hasLLM && !st.events.isEmpty
    · simp only [hllm, if_true]
      exact alookup_aupdate_none _ _ _ hk3
    · simp [hllm]

/-- C10 witness: the frame theorem at a concrete state with an existing
`notes` attribute and one event mentioning `aws`, with the enrichment merge
disabled. -/
theorem enricher_frame_witness :
    alookup "tech_stack"
      ((EnricherAgent.execute false [] enricherWitnessState).company_data.getD [])
      = .some (.vlist (extract_tech_stack enricherWitnessState.events)) ∧
    alookup "tech_stack"
      ((EnricherAgent.execute false []
        { enricherWitnessState with events := [] }).company_data.getD [])
      = .some (.vlist []) ∧
    alookup "category"
      ((EnricherAgent.execute false [] enricherWitnessState).company_data.getD [])
      = .some (.vstr (segmentCategory (getInt
          ((EnricherAgent.execute false [] enricherWitnessState).company_data.getD [])
          "employee_count" 0))) ∧
    alookup "notes"
      ((EnricherAgent.execute false [] enricherWitnessState).company_data.getD [])
      = alookup "notes" (enricherWitnessState.company_data.getD []) ∧
    (extract_tech_stack enricherWitnessState.events).Nodup ∧
    ∃ kw ∈ tech_keywords, "Aws" = pyTitle kw :=
  enricher_frame false [] enricherWitnessState "notes" "Aws" rfl
    (by decide) (by decide) rfl (by decide)

theorem can_fetch_ops_robots (env : CrawlerEnv) (cache : RobotsCache)
    (url : String) :
    ∀ op ∈ (can_fetch env cache url).2.2,
      op = NetOp.robotsGet (schemeHost url) := by
  unfold can_fetch
  simp only [respect_robots_txt, Bool.not_true, Bool.false_eq_true, if_false]
  by_cases hc : (alookup (schemeHost url) cache).isSome
  · simp [hc]
  · simp [hc]

/-- C5: the fetch operation is total (no exception crosses its boundary —
the Lean embedding is a total function over the response oracle) and returns
exactly one outcome per URL: `blocked` precisely when the robots policy
denies, in which case no page GET is performed for that URL; otherwise the
single GET surfaces a non-2xx status as `http_error` carrying the status
code, a timeout as `timeout`, and any other exception as `other` with its
message. -/
theorem fetch_url_outcomes (env : CrawlerEnv) (cache : RobotsCache)
    (url : String) (s : Nat) (t m : String) :
    ((fetch_url env cache url).1 = .blocked url ↔
      (can_fetch env cache url).1 = false) ∧
    ((can_fetch env cache url).1 = false →
      NetOp.pageGet url ∉ (fetch_url env cache url).2.2) ∧
    ((can_fetch env cache url).1 = true → env.get url = .response s t →
      (fetch_url env cache url).1 =
        if 200 ≤ s ∧ s < 300 then .success url s t else .http_error url s) ∧
    ((can_fetch env cache url).1 = true → env.get url = .timeout →
      (fetch_url env cache url).1 = .timeout url) ∧
    ((can_fetch env cache url).1 = true → env.get url = .exc m →
      (fetch_url env cache url).1 = .other url m) := by
  have hops := can_fetch_ops_robots env cache url
  rcases hcf : can_fetch env cache url with ⟨allowed, cache2, ops⟩
  rw [hcf] at hops
  cases allowed
  · refine ⟨?_, ?_, ?_, ?_, ?_⟩
    · simp [fetch_url, hcf]
    · intro _ hmem
      simp only [fetch_url, hcf] at hmem
      have := hops _ hmem
      simp at this
    · intro htrue
      simp at htrue
    · intro htrue
      simp at htrue
    · intro htrue
      simp at htrue
  · refine ⟨?_, ?_, ?_, ?_, ?_⟩
    · cases hg : env.get url with
      | response s' t' => by_cases h2 : 200 ≤ s' ∧ s' < 300 <;>
          simp [fetch_url, hcf, hg, h2]
      | timeout => simp [fetch_url, hcf, hg]
      | exc m' => simp [fetch_url, hcf, hg]
    · intro hfalse
      simp at hfalse
    · intro _ hg
      simp [fetch_url, hcf, hg]
    · intro _ hg
      simp [fetch_url, hcf, hg]
    · intro _ hg
      simp [fetch_url, hcf, hg]

/-- C5 witness: the outcome theorem at a concrete environment whose page GET
times out, on a fresh cache. -/
theorem fetch_url_outcomes_witness :
    (can_fetch crawlerWitnessEnv [] "https://x.com/a").1 = true ∧
    crawlerWitnessEnv.get "https://x.com/a" = .timeout ∧
    (fetch_url crawlerWitnessEnv [] "https://x.com/a").1 =
      .timeout "https://x.com/a" :=
  ⟨by decide, rfl,
    (fetch_url_outcomes crawlerWitnessEnv [] "https://x.com/a" 404 "" "err").2.2.2.1
      (by decide) rfl⟩

/-- C6: evaluation of the code at the failing input.  For a domain whose
`/robots.txt` GET returns a non-200 status, the cached parser is never
parsed, and CPython `can_fetch` denies every URL while `last_checked` is
unset — so `allowed` is false for every URL of the domain (the claim, the
spec and the source comment "No robots.txt or error, allow crawling" all
say it must be true).  The caching itself works as claimed: the second
lookup performs no network operation and evaluates the same cached parser. -/
theorem robots_non200_fail_closed :
    (can_fetch robots404Env [] "https://example.com/page").1 = false ∧
    (can_fetch robots404Env [] "https://example.com/another").1 = false ∧
    (can_fetch robots404Env
      (can_fetch robots404Env [] "https://example.com/page").2.1
      "https://example.com/page").2.2 = [] ∧
    (can_fetch robots404Env
      (can_fetch robots404Env [] "https://example.com/page").2.1
      "https://example.com/page").1 = false := by
  refine ⟨by decide, by decide, by rfl, by decide⟩

/-- C1 witness: the bounds-and-formula theorem at a concrete state whose
company data is non-falsy, with the evaluation time fixed at 0. -/
theorem scorer_scores_bounds_and_overall_witness :
    dictFalsy scorerWitnessState.company_data = false ∧
    ((ScorerAgent.execute 0 scorerWitnessState).scores.isSome = true ∧
    0 ≤ (scoresOf (ScorerAgent.execute 0 scorerWitnessState)).fit ∧
    (scoresOf (ScorerAgent.execute 0 scorerWitnessState)).fit ≤ 100 ∧
    0 ≤ (scoresOf (ScorerAgent.execute 0 scorerWitnessState)).intent ∧
    (scoresOf (ScorerAgent.execute 0 scorerWitnessState)).intent ≤ 100 ∧
    0 ≤ (scoresOf (ScorerAgent.execute 0 scorerWitnessState)).timing ∧
    (scoresOf (ScorerAgent.execute 0 scorerWitnessState)).timing ≤ 100 ∧
    0 ≤ (scoresOf (ScorerAgent.execute 0 scorerWitnessState)).overall ∧
    (scoresOf (ScorerAgent.execute 0 scorerWitnessState)).overall ≤ 100 ∧
    (scoresOf (ScorerAgent.execute 0 scorerWitnessState)).overall =
      round2 (0.4 * (scoresOf (ScorerAgent.execute 0 scorerWitnessState)).fit
        + 0.4 * (scoresOf (ScorerAgent.execute 0 scorerWitnessState)).intent
        + 0.2 * (scoresOf (ScorerAgent.execute 0 scorerWitnessState)).timing)) :=
  ⟨rfl, scorer_scores_bounds_and_overall 0 scorerWitnessState rfl⟩

end LeadQual
